import Mathlib

/-!
Shallow embedding of the `jetbrains-key-get2` repository (files `src/main.py`
and `src/server.py`) together with proofs about the claims of its
specification.  Pure Python functions are translated into executable Lean
definitions; calendar dates are represented by day numbers (proleptic
Gregorian calendar, day 0 = 0000-03-01), and `datetime.now()` is made an
explicit `today` parameter.  Whitespace handling models the ASCII whitespace
characters, which are the only ones relevant to the license-key strings the
program manipulates.
-/

/-- ASCII whitespace characters removed by Python `str.split()` /
`''.join(s.split())` normalization. -/
def isPySpace (c : Char) : Bool :=
  c = ' ' || c = '\t' || c = '\n' || c = '\r' || c = '\x0b' || c = '\x0c'

/-- Character class `[A-Z0-9]` of the validation regexes (no IGNORECASE). -/
def isAZ09 (c : Char) : Bool :=
  ('A' ≤ c && c ≤ 'Z') || ('0' ≤ c && c ≤ '9')

/-- Character class `[A-Z0-9]` under `re.IGNORECASE`, as used by the
extraction regexes: it also accepts `a`-`z`. -/
def isAZ09ci (c : Char) : Bool :=
  isAZ09 c || ('a' ≤ c && c ≤ 'z')

/-- `''.join(license_key.split()).upper()` from `validate_license`
(src/main.py line 358): drop all whitespace, uppercase the rest. -/
def normalizeKey (s : String) : String :=
  String.mk ((s.data.filter (fun c => !isPySpace c)).map Char.toUpper)

/-! ## Proleptic Gregorian calendar (day numbers, day 0 = 0000-03-01) -/

/-- Gregorian leap-year test for a nonnegative year given as `Int`
(years below 1 are rejected before this is consulted). -/
def isLeapInt (y : Int) : Bool :=
  y % 4 = 0 && (y % 100 ≠ 0 || y % 400 = 0)

/-- Number of days in a month, matching the validity rules of Python
`datetime(year, month, day)`.  Only consulted for `1 ≤ m ≤ 12`. -/
def daysInMonthInt (y : Int) (m : Nat) : Nat :=
  match m with
  | 2 => if isLeapInt y then 29 else 28
  | 4 => 30
  | 6 => 30
  | 9 => 30
  | 11 => 30
  | _ => 31

/-- Validity of a calendar date exactly as Python `datetime(y, m, d)`
accepts it (year at least 1, month 1..12, day within the month). -/
def validYMDInt (y : Int) (m d : Nat) : Bool :=
  1 ≤ y && 1 ≤ m && m ≤ 12 && 1 ≤ d && d ≤ daysInMonthInt y m

/-- Nat version of `validYMDInt` for dates whose components are `Nat`. -/
def validYMD (y m d : Nat) : Bool :=
  validYMDInt (y : Int) m d

/-- Day number of a valid Gregorian date (days since 0000-03-01, the
standard civil-from-days construction). -/
def dayNumOfYmd (y m d : Nat) : Nat :=
  let y' := if m ≤ 2 then y - 1 else y
  let era := y' / 400
  let yoe := y' % 400
  let mp := (m + 9) % 12
  let doy := (153 * mp + 2) / 5 + d - 1
  let doe := yoe * 365 + yoe / 4 - yoe / 100 + doy
  era * 146097 + doe

/-- Inverse of `dayNumOfYmd`: the (year, month, day) of a day number. -/
def ymdOfDayNum (n : Nat) : Nat × Nat × Nat :=
  let era := n / 146097
  let doe := n % 146097
  let yoe := (doe - doe / 1460 + doe / 36524 - doe / 146096) / 365
  let y := yoe + era * 400
  let doy := doe - (365 * yoe + yoe / 4 - yoe / 100)
  let mp := (5 * doy + 2) / 153
  let d := doy - (153 * mp + 2) / 5 + 1
  let m := if mp < 10 then mp + 3 else mp - 9
  (if m ≤ 2 then y + 1 else y, m, d)

/-- Zero-pad a number to two digits, as `strftime` field `%m` / `%d`. -/
def pad2 (n : Nat) : String :=
  if n < 10 then "0" ++ toString n else toString n

/-- Zero-pad a number to four digits, as `strftime` field `%Y`. -/
def pad4 (n : Nat) : String :=
  if n < 10 then "000" ++ toString n
  else if n < 100 then "00" ++ toString n
  else if n < 1000 then "0" ++ toString n
  else toString n

/-- `strftime("%Y-%m-%d")` of a (year, month, day) triple. -/
def isoOfYmd (y m d : Nat) : String :=
  pad4 y ++ "-" ++ pad2 m ++ "-" ++ pad2 d

/-- `strftime("%Y-%m-%d")` of an `Int` year (used only on valid dates,
whose year is at least 1). -/
def isoOfYmdInt (y : Int) (m d : Nat) : String :=
  isoOfYmd y.toNat m d

/-- `strftime("%Y-%m-%d")` of a day number. -/
def isoOfDayNum (n : Nat) : String :=
  isoOfYmd (ymdOfDayNum n).1 (ymdOfDayNum n).2.1 (ymdOfDayNum n).2.2

/-- `strftime("%m-%d")` of a day number. -/
def mdOfDayNum (n : Nat) : String :=
  pad2 (ymdOfDayNum n).2.1 ++ "-" ++ pad2 (ymdOfDayNum n).2.2

/-! ## First-seen deduplication (`list(dict.fromkeys(...))` and `list(set(...))`) -/

/-- Worker of `dedupFirst`: keep each string the first time it is seen. -/
def dedupFirstGo (seen : List String) : List String → List String
  | [] => []
  | x :: xs =>
    if x ∈ seen then dedupFirstGo seen xs
    else x :: dedupFirstGo (x :: seen) xs

/-- Order-preserving duplicate removal keeping first occurrences; this is
the semantics of Python `list(dict.fromkeys(urls))` (src/main.py line 265).
`list(set(dates))` (line 202) yields the same elements in an unspecified
order, which we canonicalize to first-seen order; the claims about it are
order-insensitive (membership and duplicate-freeness). -/
def dedupFirst (l : List String) : List String :=
  dedupFirstGo [] l

/-- Index of the first occurrence of a string in a list (length of the
list when absent). -/
def firstIdx (a : String) : List String → Nat
  | [] => 0
  | x :: xs => if x = a then 0 else firstIdx a xs + 1

/-! ## `JetBrainsKeyFetcher.generate_dates` (src/main.py lines 180-202) -/

/-- First loop of `generate_dates` (lines 185-189): for each `i <
daysBack`, the ISO and the `MM-DD` rendering of `today - i`. -/
def dailyDates (today daysBack : Nat) : List String :=
  (List.range daysBack).flatMap
    (fun i => [isoOfDayNum (today - i), mdOfDayNum (today - i)])

/-- Second loop of `generate_dates` (lines 192-200): for each year in
`range(current_year-2, current_year+2)` — that is, the four years from
`current_year-2` to `current_year+1` — and each month, the ISO rendering
of the 1st and the 15th whenever `datetime(year, month, day)` accepts the
date (`ValueError` is silently skipped).  Years are `Int` because Python's
`current_year - 2` may drop below 1, in which case `datetime` raises and
the date is skipped. -/
def monthlyDates (today : Nat) : List String :=
  (List.range 4).flatMap (fun k =>
    (List.range 12).flatMap (fun mi =>
      ([1, 15] : List Nat).filterMap (fun day =>
        if validYMDInt (((ymdOfDayNum today).1 : Int) - 2 + (k : Int)) (mi + 1) day then
          some (isoOfYmdInt (((ymdOfDayNum today).1 : Int) - 2 + (k : Int)) (mi + 1) day)
        else none)))

/-- `generate_dates`, with `datetime.now()` replaced by the day number
`today` and `self.days_back` by `daysBack`; `list(set(dates))` removes
duplicates at the end. -/
def generate_dates (today : Nat) (daysBack : Nat) : List String :=
  dedupFirst (dailyDates today daysBack ++ monthlyDates today)

/-! ## Python `str.format` (keyword fields only, as the source uses it) -/

/-- The `{` character (written via its code so that braces appear in no
string literal of this file). -/
def lbrace : Char := Char.ofNat 123

/-- The `}` character. -/
def rbrace : Char := Char.ofNat 125

/-- Worker of `pyFormat`.  The first argument says whether we are inside a
replacement field, the second accumulates the field name (reversed).
Doubled braces are literal braces; a single closing brace or an unclosed
or unknown field raises (returns `none`), exactly as CPython's
`str.format` does for the keyword-only call sites of `src/main.py`
(format specs and conversions are not modeled: no template in the
repository or in the theorems below uses them). -/
def pyFormatGo (binds : List (String × String)) :
    Bool → List Char → List Char → Option (List Char)
  | false, _, [] => some []
  | false, acc, c :: rest =>
    if c = lbrace then
      match rest with
      | [] => none
      | c2 :: rest2 =>
        if c2 = lbrace then (pyFormatGo binds false acc rest2).map (List.cons lbrace)
        else pyFormatGo binds true [] (c2 :: rest2)
    else if c = rbrace then
      match rest with
      | [] => none
      | c2 :: rest2 =>
        if c2 = rbrace then (pyFormatGo binds false acc rest2).map (List.cons rbrace)
        else none
    else (pyFormatGo binds false acc rest).map (List.cons c)
  | true, _, [] => none
  | true, acc, c :: rest =>
    if c = rbrace then
      match binds.lookup (String.mk acc.reverse) with
      | some v => (pyFormatGo binds false [] rest).map (fun t => v.data ++ t)
      | none => none
    else if c = lbrace then none
    else pyFormatGo binds true (c :: acc) rest

/-- `template.format(**binds)` with keyword bindings; `none` models a
raised `KeyError` / `ValueError`. -/
def pyFormat (binds : List (String × String)) (template : String) : Option String :=
  (pyFormatGo binds false [] template.data).map String.mk

/-- Does `pat` occur at the head of the second list? -/
def listStartsWith : List Char → List Char → Bool
  | [], _ => true
  | _ :: _, [] => false
  | p :: ps, c :: cs => p = c && listStartsWith ps cs

/-- Worker of `containsSub`. -/
def containsSubGo (pat : List Char) : List Char → Bool
  | [] => listStartsWith pat []
  | c :: cs => listStartsWith pat (c :: cs) || containsSubGo pat cs

/-- Python's substring test `pat in s`. -/
def containsSub (pat s : String) : Bool :=
  containsSubGo pat.data s.data

/-- Python's `s.startswith(pat)`. -/
def strStartsWith (s pat : String) : Bool :=
  listStartsWith pat.data s.data

/-- Worker of `pySplit`.  The fuel argument starts at the input length
and dominates it throughout, so the fuel-exhaustion branch is never
taken; fuel only makes the recursion structural. -/
def splitOnSepFuel (sep : List Char) : Nat → List Char → List Char → List (List Char)
  | 0, cur, _ => [cur.reverse]
  | _ + 1, cur, [] => [cur.reverse]
  | fuel + 1, cur, c :: cs =>
    if listStartsWith sep (c :: cs) then
      cur.reverse :: splitOnSepFuel sep fuel [] ((c :: cs).drop sep.length)
    else splitOnSepFuel sep fuel (c :: cur) cs

/-- Python's `s.split(sep)` for a nonempty separator: split at each
leftmost non-overlapping occurrence, keeping empty pieces. -/
def pySplit (s sep : String) : List String :=
  (splitOnSepFuel sep.data s.data.length [] s.data).map String.mk

/-- Strict lexicographic order on character lists (code-point order),
the comparison Python's `sorted` uses on strings. -/
def listLexLt : List Char → List Char → Bool
  | [], [] => false
  | [], _ :: _ => true
  | _ :: _, [] => false
  | a :: as, b :: bs =>
    if a < b then true else if b < a then false else listLexLt as bs

/-- Worker of `replaceFirstOcc`. -/
def replaceFirstGo (pat rep : List Char) : List Char → List Char
  | [] => []
  | c :: cs =>
    if listStartsWith pat (c :: cs) then rep ++ (c :: cs).drop pat.length
    else c :: replaceFirstGo pat rep cs

/-- Python's `s.replace(pat, rep, 1)`: replace the first occurrence only.
(The call sites always use a nonempty `pat`, so the empty-pattern corner
of CPython is irrelevant.) -/
def replaceFirstOcc (s pat rep : String) : String :=
  String.mk (replaceFirstGo pat.data rep.data s.data)

/-- Python's `s.lstrip('/')`. -/
def lstripSlash (s : String) : String :=
  String.mk (s.data.dropWhile (fun c => c = '/'))

/-! ## `JetBrainsKeyFetcher.construct_urls` (src/main.py lines 204-265) -/

/-- A source descriptor from `self.sources`: repository kind (`"gitee"` or
`"github"`), repository name, and path template. -/
structure Source where
  type : String
  name : String
  path : String
deriving DecidableEq

/-- `gitee_url` helper (line 216). -/
def giteeUrl (repoName sub : String) : String :=
  "https://gitee.com/" ++ repoName ++ "/" ++ lstripSlash sub

/-- `github_blob_url` helper (line 219). -/
def githubBlobUrl (repoName sub : String) : String :=
  "https://github.com/" ++ repoName ++ "/" ++ lstripSlash sub

/-- The `raw.githubusercontent.com` URL form (lines 253 and 260). -/
def rawGithubUrl (repoName sub : String) : String :=
  "https://raw.githubusercontent.com/" ++ repoName ++ "/main/" ++ sub

/-- Body of `construct_urls` before the final dedup: returns the `urls`
list accumulated by the `try` block together with a flag recording whether
an exception was raised and caught by the `except` handler on line 261
(mutations made to `urls` before the exception survive it, as in Python). -/
def constructUrlsAux (date : String) (source : Source) : List String × Bool :=
  match pyFormat [("date", date)] source.path with
  | none => ([], true)
  | some path =>
    if source.type = "gitee" then
      let base :=
        if strStartsWith path "blob/" || strStartsWith path "raw/" then
          if strStartsWith path "blob/" then
            [giteeUrl source.name path,
             giteeUrl source.name (replaceFirstOcc path "blob/" "raw/")]
          else
            [giteeUrl source.name path,
             giteeUrl source.name (replaceFirstOcc path "raw/" "blob/")]
        else
          [giteeUrl source.name ("blob/master/" ++ path),
           giteeUrl source.name ("raw/master/" ++ path),
           giteeUrl source.name path]
      if containsSub "-" date &&
          (containsSub "\x7byear\x7d" source.path ||
            containsSub "\x7bmonth\x7d" source.path ||
            containsSub "\x7bday\x7d" source.path) then
        match pySplit date "-" with
        | [y, m, d] =>
          match pyFormat [("date", date), ("year", y), ("month", m), ("day", d)]
              source.path with
          | none => (base, true)
          | some cp =>
            if cp ≠ path then (base ++ [giteeUrl source.name cp], false)
            else (base, false)
        | _ => (base, true)
      else (base, false)
    else if source.type = "github" then
      if strStartsWith path "blob/" || strStartsWith path "raw/" then
        if strStartsWith path "blob/" then
          ([githubBlobUrl source.name path,
            rawGithubUrl source.name (replaceFirstOcc path "blob/" "")], false)
        else
          ([githubBlobUrl source.name path,
            githubBlobUrl source.name (replaceFirstOcc path "raw/" "blob/")], false)
      else
        ([githubBlobUrl source.name ("blob/main/" ++ path),
          rawGithubUrl source.name path], false)
    else ([], false)

/-- `construct_urls`: the accumulated URLs after `list(dict.fromkeys(urls))`
(line 265). -/
def construct_urls (date : String) (source : Source) : List String :=
  dedupFirst (constructUrlsAux date source).1

/-! ## License-key shapes, `validate_license` (src/main.py lines 355-384)
and the regex extractor (lines 80-86, 301-304) -/

/-- Group sizes of the four license-key regexes, in source order:
`[A-Z0-9]{5}(-[A-Z0-9]{5}){4}`, `[A-Z0-9]{4}(-[A-Z0-9]{4}){3}`,
`[A-Z0-9]{6}(-[A-Z0-9]{6}){2}`, `[A-Z0-9]{3}-[A-Z0-9]{6}-[A-Z0-9]{6}`. -/
def license_patterns : List (List Nat) :=
  [[5, 5, 5, 5, 5], [4, 4, 4, 4], [6, 6, 6], [3, 6, 6]]

/-- Match one group-shaped regex at the head of a character list: groups
of `p`-characters of the given sizes joined by single dashes.  Returns the
number of characters consumed (the match length) or `none`.  The regexes
contain no variable-width construct, so this deterministic reading is
exactly Python `re` behaviour for them. -/
def matchLen (p : Char → Bool) : List Nat → List Char → Option Nat
  | [], _ => none
  | [n], cs =>
    if (cs.take n).length = n && (cs.take n).all p then some n else none
  | n :: g :: gs, cs =>
    if (cs.take n).length = n && (cs.take n).all p && cs.get? n = some '-' then
      (matchLen p (g :: gs) (cs.drop (n + 1))).map (fun k => k + (n + 1))
    else none

/-- Anchored full match `re.match('^...$', k)` of one shape against a
whole string.  (`$` can also match before a final newline, but the
argument is always a normalized key, which contains no whitespace.) -/
def matchShape (gs : List Nat) (k : String) : Bool :=
  match matchLen isAZ09 gs k.data with
  | some n => n == k.data.length
  | none => false

/-- The shape test of `validate_license` (lines 360-370): the normalized
key must fully match one of the four anchored patterns. -/
def shapeCheck (k : String) : Bool :=
  matchShape [5, 5, 5, 5, 5] k || matchShape [4, 4, 4, 4] k ||
    matchShape [6, 6, 6] k || matchShape [3, 6, 6] k

/-- Decimal digit test `[0-9]`. -/
def isDigit09 (c : Char) : Bool :=
  '0' ≤ c && c ≤ '9'

/-- Numeric value of a decimal digit character. -/
def digitVal (c : Char) : Nat :=
  c.toNat - '0'.toNat

/-- Parse `[0-9]{4}-[0-9]{2}-[0-9]{2}` at the head of a character list
(what follows it is unconstrained, as in `re.search`). -/
def parseExpDate : List Char → Option (Nat × Nat × Nat)
  | a :: b :: c :: d :: h1 :: e :: f :: h2 :: g :: h :: _ =>
    if isDigit09 a && isDigit09 b && isDigit09 c && isDigit09 d && h1 = '-' &&
        isDigit09 e && isDigit09 f && h2 = '-' && isDigit09 g && isDigit09 h then
      some (1000 * digitVal a + 100 * digitVal b + 10 * digitVal c + digitVal d,
        10 * digitVal e + digitVal f, 10 * digitVal g + digitVal h)
    else none
  | _ => none

/-- Try `EXP=([0-9]{4}-[0-9]{2}-[0-9]{2})` at the head of a character
list. -/
def expAt (cs : List Char) : Option (Nat × Nat × Nat) :=
  match cs with
  | c1 :: c2 :: c3 :: c4 :: rest =>
    if c1 = 'E' && c2 = 'X' && c3 = 'P' && c4 = '=' then parseExpDate rest
    else none
  | _ => none

/-- `re.search(r'EXP=([0-9]{4}-[0-9]{2}-[0-9]{2})', k)` (line 373):
leftmost match of the expiration marker, parsed into (year, month, day). -/
def searchExp : List Char → Option (Nat × Nat × Nat)
  | [] => none
  | c :: rest =>
    match expAt (c :: rest) with
    | some r => some r
    | none => searchExp rest

/-- `JetBrainsKeyFetcher.validate_license` with `datetime.now()` replaced
by the day number `today`: normalize, check the anchored shapes, then look
for an embedded `EXP=` date; a parseable expired date rejects, an
unparseable one is ignored (`except ValueError: pass`).  The comparison
`exp_date < datetime.now()` is modeled as a strict day-number comparison;
the theorem `validate_license_eq_shape_check` below shows this branch is
unreachable, so no sub-day detail can matter. -/
def validate_license (today : Nat) (license_key : String) : Bool :=
  let k := normalizeKey license_key
  if shapeCheck k then
    match searchExp k.data with
    | some (y, m, d) =>
      if validYMD y m d then
        if dayNumOfYmd y m d < today then false else true
      else true
    | none => true
  else false

/-- Worker of `extractKeys`: all non-overlapping matches of one shape,
scanning left to right (`re.findall` on a fixed-width regex). -/
def findAllGo (gs : List Nat) : List Char → List String
  | [] => []
  | c :: rest =>
    match matchLen isAZ09ci gs (c :: rest) with
    | some n =>
      String.mk ((c :: rest).take n) ::
        findAllGo gs ((c :: rest).drop (max n 1))
    | none => findAllGo gs rest
termination_by cs => cs.length
decreasing_by
  · have h1 : 1 ≤ max n 1 := Nat.le_max_right n 1
    simp only [List.length_drop, List.length_cons]
    omega
  · simp

/-- The key extractor (lines 301-304 and equivalents): for each pattern in
source order, collect all case-insensitive matches across the text. -/
def extractKeys (content : String) : List String :=
  license_patterns.flatMap (fun gs => findAllGo gs content.data)

/-! ## Batch deduplication and the merge step of `run`
(src/main.py lines 386-400 and 523-543) -/

/-- `lic.split(' | ')[0]`: the key part of an annotated license string. -/
def keyPart (lic : String) : String :=
  (pySplit lic " | ").headD ""

/-- Worker of `deduplicate_licenses` carrying the `seen_keys` set. -/
def dedupLicGo (seen : List String) : List String → List String
  | [] => []
  | lic :: rest =>
    if keyPart lic ∈ seen then dedupLicGo seen rest
    else lic :: dedupLicGo (keyPart lic :: seen) rest

/-- `JetBrainsKeyFetcher.deduplicate_licenses`: drop annotated licenses
whose key part was already seen, keeping first occurrences. -/
def deduplicate_licenses (licenses : List String) : List String :=
  dedupLicGo [] licenses

/-- Insert into a Python-set-like list only if absent (models
`set.update` one element at a time). -/
def setInsert (l : List String) (x : String) : List String :=
  if x ∈ l then l else l ++ [x]

/-- `set(found_licenses) - set([lic.split(' | ')[0] for lic in
self.all_licenses])` (lines 529 and 512): the elements of the batch whose
full annotated string does not literally equal a bare key part of the
store. -/
def newLicenses (all_licenses found : List String) : List String :=
  found.filter (fun lic => !(all_licenses.map keyPart).contains lic)

/-- One merge step of `run` for a batch of found licenses (lines
526-532): batch-deduplicate, subtract the store's bare key parts, then
`self.all_licenses.update(new_licenses)` and count the additions.
Returns the updated store and `len(new_licenses)`. -/
def runMergeStep (all_licenses found : List String) : List String × Nat :=
  let fl := deduplicate_licenses found
  let nw := newLicenses all_licenses fl
  (nw.foldl setInsert all_licenses, nw.length)

/-! ## `check_license_servers` (src/main.py lines 436-469) -/

/-- Outcome of `self.session.get` on one server: an HTTP response with a
status code and body, or a raised network error. -/
inductive ServerOutcome where
  | resp (code : Nat) (body : String)
  | netErr
deriving DecidableEq

/-- The provenance annotation added to a key found on a license server
(line 457). -/
def serverAnnotate (today : Nat) (url lic : String) : String :=
  lic ++ " | Source: Server " ++ url ++ " | Date: " ++ isoOfDayNum today

/-- Extraction + validation + annotation applied to one server body
(lines 449-457). -/
def extractValidated (today : Nat) (url : String) (content : String) : List String :=
  ((extractKeys content).filter (validate_license today)).map (serverAnnotate today url)

/-- Worker of `check_license_servers`.  `vs` is `valid_servers`; `vlOpt`
models the local variable `valid_licenses`, which is unbound (`none`)
until some 200 response has been processed.  After the loop, line 467
evaluates `if valid_servers and not valid_licenses`; reading
`valid_licenses` while unbound would raise `NameError`, modeled as
`Except.error ()` — but `and` short-circuits when `valid_servers` is
empty, so the read only happens when `vs` is nonempty. -/
def checkServersGo (today : Nat) :
    List (String × ServerOutcome) → List String → Option (List String) →
      Except Unit (List String)
  | [], vs, vlOpt =>
    if vs.isEmpty then Except.ok []
    else
      match vlOpt with
      | none => Except.error ()
      | some _ => Except.ok []
  | (url, o) :: rest, vs, vlOpt =>
    match o with
    | ServerOutcome.netErr => checkServersGo today rest vs vlOpt
    | ServerOutcome.resp code body =>
      if code = 200 then
        let vl := extractValidated today url body
        if vl.isEmpty then checkServersGo today rest (vs ++ [url]) (some vl)
        else Except.ok vl
      else checkServersGo today rest vs vlOpt

/-- `JetBrainsKeyFetcher.check_license_servers`, over an arbitrary
assignment of HTTP outcomes to the configured server endpoints.
`Except.error ()` would model an uncaught `NameError` escaping the
function; `check_license_servers_first_yield` proves this never occurs. -/
def check_license_servers (today : Nat)
    (servers : List (String × ServerOutcome)) : Except Unit (List String) :=
  checkServersGo today servers [] none

/-- Modelled from the spec: "stops at the first server that yields any
validated keys" and otherwise "treated as zero keys found" — the annotated
validated keys of the first probed server whose 200 body yields any, or
`[]` when none does.  Used as the specification side of the refinement
theorem for `check_license_servers`. -/
def firstServerYield (today : Nat) :
    List (String × ServerOutcome) → List String
  | [] => []
  | (url, ServerOutcome.resp code body) :: rest =>
    if code = 200 then
      let vl := extractValidated today url body
      if vl.isEmpty then firstServerYield today rest else vl
    else firstServerYield today rest
  | (_, ServerOutcome.netErr) :: rest => firstServerYield today rest

/-! ## The output report written by `run` (src/main.py lines 496-501,
516-520, 535-539, 558-564) and `load_licenses` of the license server
(src/server.py lines 35-60) -/

/-- Header written when `run` clears the output file (lines 498-501). -/
def reportHeaderLines (genTime : String) : List String :=
  ["JetBrains License Keys Report", "=============================", "",
    "Generated: " ++ genTime, ""]

/-- Per-date section written for a batch of newly accepted keys (lines
535-539): a `Licenses for <date>:` title, one `- <key> | <provenance>`
line per accepted key, then a blank line. -/
def dateSectionLines (date : String) (newLics : List String) : List String :=
  ("Licenses for " ++ date ++ ":") :: newLics.map (fun lic => "- " ++ lic) ++ [""]

/-- Summary section appended at the end of `run` (lines 559-564). -/
def summaryLines (totalNew cached : Nat) (doneTime : String) : List String :=
  ["", "Summary", "=======", "Total new licenses found: " ++ toString totalNew,
    "Total licenses in cache: " ++ toString cached,
    "Processing completed: " ++ doneTime]

/-- Python `str.strip()` (ASCII whitespace at both ends). -/
def pyStrip (s : String) : String :=
  String.mk (((s.data.dropWhile isPySpace).reverse.dropWhile isPySpace).reverse)

/-- `line.startswith(('#', '!', '-', '//'))` from `load_licenses`. -/
def startsWithAny (l : String) : Bool :=
  strStartsWith l "#" || strStartsWith l "!" || strStartsWith l "-" || strStartsWith l "//"

/-- Ascending insertion into a sorted list of strings (Python `sorted` on
a set of distinct strings is insensitive to insertion order). -/
def insertSorted (x : String) : List String → List String
  | [] => [x]
  | y :: ys => if listLexLt x.data y.data then x :: y :: ys else y :: insertSorted x ys

/-- Insertion sort implementing Python `sorted` for distinct strings. -/
def sortStrings (l : List String) : List String :=
  l.foldr insertSorted []

/-- Worker of `load_licenses` carrying the accumulated set. -/
def loadLicensesGo (acc : List String) : List String → List String
  | [] => acc
  | line :: rest =>
    let l := pyStrip line
    if l = "" || startsWithAny l then loadLicensesGo acc rest
    else
      let key := if containsSub "|" l then pyStrip ((pySplit l "|").headD "") else l
      if 16 ≤ key.length then loadLicensesGo (setInsert acc key) rest
      else loadLicensesGo acc rest

/-- `load_licenses` of `src/server.py` applied to the lines of the
license file: strip each line, skip blank lines and lines starting with
`#`, `!`, `-` or `//`, take the part before the first `|`, keep it if it
is at least 16 characters long, and return the resulting set sorted. -/
def load_licenses (fileLines : List String) : List String :=
  sortStrings (loadLicensesGo [] fileLines)

/-- Length of any full match of a group-shaped regex: the group sizes
plus one dash between consecutive groups. -/
def groupsLen : List Nat → Nat
  | [] => 0
  | [n] => n
  | n :: g :: gs => n + 1 + groupsLen (g :: gs)

/-- The three license-server endpoints probed by
`check_license_servers` (src/main.py lines 104-108). -/
def license_servers : List String :=
  ["https://jetlicense.nss.im", "https://license4j.com",
    "https://licenseserver.jetbrains.com"]

/-! ## Helper lemmas about first-seen deduplication -/

/-- Membership in `dedupFirstGo`: an element is kept iff it occurs in the
input and is not in the `seen` accumulator. -/
theorem mem_dedupFirstGo (x : String) (l : List String) :
    ∀ seen, x ∈ dedupFirstGo seen l ↔ x ∈ l ∧ x ∉ seen := by
  induction l with
  | nil => intro seen; simp [dedupFirstGo]
  | cons y ys ih =>
    intro seen
    rw [dedupFirstGo]
    by_cases h : y ∈ seen
    · rw [if_pos h, ih seen]
      constructor
      · rintro ⟨h1, h2⟩
        exact ⟨List.mem_cons_of_mem _ h1, h2⟩
      · rintro ⟨h1, h2⟩
        rcases List.mem_cons.mp h1 with h3 | h3
        · exact absurd (h3 ▸ h) h2
        · exact ⟨h3, h2⟩
    · rw [if_neg h]
      constructor
      · intro h1
        rcases List.mem_cons.mp h1 with h3 | h3
        · subst h3
          exact ⟨List.mem_cons_self x ys, h⟩
        · obtain ⟨h4, h5⟩ := (ih (y :: seen)).mp h3
          exact ⟨List.mem_cons_of_mem _ h4,
            fun hx => h5 (List.mem_cons_of_mem _ hx)⟩
      · rintro ⟨h1, h2⟩
        by_cases hxy : x = y
        · subst hxy
          exact List.mem_cons_self x _
        · rcases List.mem_cons.mp h1 with h3 | h3
          · exact absurd h3 hxy
          · refine List.mem_cons_of_mem _ ((ih (y :: seen)).mpr ⟨h3, ?_⟩)
            intro hx
            rcases List.mem_cons.mp hx with h4 | h4
            · exact hxy h4
            · exact h2 h4

/-- Membership in `dedupFirst` is membership in the input. -/
theorem mem_dedupFirst (x : String) (l : List String) :
    x ∈ dedupFirst l ↔ x ∈ l := by
  rw [dedupFirst, mem_dedupFirstGo]
  simp

/-- `firstIdx` unfolded on a cons cell. -/
theorem firstIdx_cons (a x : String) (xs : List String) :
    firstIdx a (x :: xs) = if x = a then 0 else firstIdx a xs + 1 := rfl

/-- The elements kept by `dedupFirstGo` appear in the order of their
first occurrence in the input list. -/
theorem pairwise_firstIdx_dedupFirstGo (l : List String) :
    ∀ seen, List.Pairwise (fun a b => firstIdx a l < firstIdx b l)
      (dedupFirstGo seen l) := by
  induction l with
  | nil => intro seen; simp [dedupFirstGo]
  | cons y ys ih =>
    intro seen
    rw [dedupFirstGo]
    by_cases h : y ∈ seen
    · rw [if_pos h]
      refine List.Pairwise.imp_of_mem ?_ (ih seen)
      intro a b ha hb hab
      have ha' := (mem_dedupFirstGo a ys seen).mp ha
      have hb' := (mem_dedupFirstGo b ys seen).mp hb
      have hay : ¬(y = a) := fun he => ha'.2 (he ▸ h)
      have hby : ¬(y = b) := fun he => hb'.2 (he ▸ h)
      rw [firstIdx_cons, firstIdx_cons, if_neg hay, if_neg hby]
      omega
    · rw [if_neg h]
      constructor
      · intro b hb
        have hb' := (mem_dedupFirstGo b ys (y :: seen)).mp hb
        have hby : ¬(y = b) := fun he => hb'.2 (he ▸ List.mem_cons_self y seen)
        rw [firstIdx_cons, firstIdx_cons, if_pos rfl, if_neg hby]
        omega
      · refine List.Pairwise.imp_of_mem ?_ (ih (y :: seen))
        intro a b ha hb hab
        have ha' := (mem_dedupFirstGo a ys (y :: seen)).mp ha
        have hb' := (mem_dedupFirstGo b ys (y :: seen)).mp hb
        have hay : ¬(y = a) := fun he => ha'.2 (he ▸ List.mem_cons_self y seen)
        have hby : ¬(y = b) := fun he => hb'.2 (he ▸ List.mem_cons_self y seen)
        rw [firstIdx_cons, firstIdx_cons, if_neg hay, if_neg hby]
        omega

/-- `dedupFirst` never keeps a string twice. -/
theorem nodup_dedupFirst (l : List String) : (dedupFirst l).Nodup := by
  refine List.Pairwise.imp ?_ (pairwise_firstIdx_dedupFirstGo l [])
  intro a b hab he
  exact absurd (he ▸ hab) (lt_irrefl _)

/-! ## Claim theorems -/

/-- Claim C9: for every date string and source descriptor, a single call
to `construct_urls` returns a list containing no URL string twice, keeping
exactly the URLs accumulated by the construction, in the order of their
first occurrence. -/
theorem construct_urls_nodup_first_seen (date : String) (source : Source) :
    (construct_urls date source).Nodup ∧
      (∀ u, u ∈ construct_urls date source ↔
        u ∈ (constructUrlsAux date source).1) ∧
      List.Pairwise
        (fun a b => firstIdx a (constructUrlsAux date source).1 <
          firstIdx b (constructUrlsAux date source).1)
        (construct_urls date source) := by
  refine ⟨nodup_dedupFirst _, ?_, ?_⟩
  · intro u
    rw [construct_urls, mem_dedupFirst]
  · rw [construct_urls, dedupFirst]
    exact pairwise_firstIdx_dedupFirstGo _ []

/-- Claim C1 (code bug): both end-to-end scenario-B candidates are
rejected by `validate_license`, whatever the current date: the anchored
shape check already fails on the embedded `|EXP=...` marker, so the
expiration branch never runs and the 2099 candidate is not accepted as
the spec requires. -/
theorem validate_license_rejects_embedded_exp (today : Nat) :
    validate_license today "AAAA-BBBB-CCCC-DDDD|EXP=2000-01-01" = false ∧
      validate_license today "AAAA-BBBB-CCCC-DDDD|EXP=2099-01-01" = false :=
  ⟨rfl, rfl⟩

/-- Claim C2 (code bug): the merge step of `run` compares the full
annotated batch strings against the bare key parts of the store, so a key
already in the store under provenance A is added and counted again when
rediscovered under provenance B: afterwards the store holds two entries
with the same normalized key text. -/
theorem run_merge_readds_known_key :
    (runMergeStep
        ["AAAA-BBBB-CCCC-DDDD | Source: https://a.example | Date: 2025-01-01"]
        ["AAAA-BBBB-CCCC-DDDD | Source: https://b.example | Date: 2025-01-02"]).1 =
      ["AAAA-BBBB-CCCC-DDDD | Source: https://a.example | Date: 2025-01-01",
        "AAAA-BBBB-CCCC-DDDD | Source: https://b.example | Date: 2025-01-02"] ∧
      keyPart "AAAA-BBBB-CCCC-DDDD | Source: https://a.example | Date: 2025-01-01" =
        keyPart "AAAA-BBBB-CCCC-DDDD | Source: https://b.example | Date: 2025-01-02" ∧
      (runMergeStep
        ["AAAA-BBBB-CCCC-DDDD | Source: https://a.example | Date: 2025-01-01"]
        ["AAAA-BBBB-CCCC-DDDD | Source: https://b.example | Date: 2025-01-02"]).2 = 1 :=
  ⟨rfl, rfl, rfl⟩

/-- Claim C3 (code bug): on the report `run` writes, whose key lines are
`- <key> | <provenance>`, the server's `load_licenses` returns none of
the accepted keys — the `startswith('-')` filter skips every key line —
and instead returns long header lines such as the section title. -/
theorem load_licenses_drops_report_keys :
    "AAAAA-BBBBB-CCCCC-DDDDD-EEEEE" ∉
        load_licenses (reportHeaderLines "2025-01-01 00:00:00" ++
          dateSectionLines "2025-01-01"
            ["AAAAA-BBBBB-CCCCC-DDDDD-EEEEE | Source: https://a.example | Date: 2025-01-01"] ++
          summaryLines 1 1 "2025-01-01 00:00:05") ∧
      "Licenses for 2025-01-01:" ∈
        load_licenses (reportHeaderLines "2025-01-01 00:00:00" ++
          dateSectionLines "2025-01-01"
            ["AAAAA-BBBBB-CCCCC-DDDDD-EEEEE | Source: https://a.example | Date: 2025-01-01"] ++
          summaryLines 1 1 "2025-01-01 00:00:05") := by
  exact ⟨by decide, by decide⟩

/-- Claim C6 (code bug): a gitee source whose path template references
`\x7byear\x7d` in addition to `\x7bdate\x7d` yields no URLs at all — the
initial `path_template.format(date=date)` raises `KeyError` before the
component-expansion branch can run, the exception is caught, and the
empty list is returned instead of the plain and component-expanded
variants the spec describes. -/
theorem construct_urls_component_placeholder_empty :
    construct_urls "2025-01-01"
        ⟨"gitee", "owner/repo", "licenses/\x7byear\x7d/\x7bdate\x7d.txt"⟩ = [] ∧
      (constructUrlsAux "2025-01-01"
        ⟨"gitee", "owner/repo", "licenses/\x7byear\x7d/\x7bdate\x7d.txt"⟩).2 = true :=
  ⟨rfl, rfl⟩

/-- Claim C8 counterexample: a (date, source) pair whose URL building
raises inside the `try` block — the date `10-12` has no third component,
so the tuple unpacking in the component-expansion branch raises
`ValueError` — yet `construct_urls` returns the three URLs accumulated
before the failure, not the empty list the claim requires. -/
theorem construct_urls_error_partial_cex :
    (constructUrlsAux "10-12"
        ⟨"gitee", "owner/repo", "data/\x7b\x7byear\x7d\x7d/\x7bdate\x7d.txt"⟩).2 = true ∧
      construct_urls "10-12"
          ⟨"gitee", "owner/repo", "data/\x7b\x7byear\x7d\x7d/\x7bdate\x7d.txt"⟩ =
        ["https://gitee.com/owner/repo/blob/master/data/\x7byear\x7d/10-12.txt",
          "https://gitee.com/owner/repo/raw/master/data/\x7byear\x7d/10-12.txt",
          "https://gitee.com/owner/repo/data/\x7byear\x7d/10-12.txt"] :=
  ⟨rfl, rfl⟩

/-- Claim C8 (amended): whenever the initial rendering of the path
template raises — in particular when the template references an undefined
placeholder — `construct_urls` catches the exception and returns the
empty list. -/
theorem construct_urls_render_error_empty (date : String) (source : Source)
    (h : pyFormat [("date", date)] source.path = none) :
    construct_urls date source = [] := by
  rw [construct_urls, constructUrlsAux, h]
  rfl

/-- Concrete witness for `construct_urls_render_error_empty`: a template
with the undefined placeholder `\x7byr\x7d` renders to an error and the
call returns no URLs. -/
theorem construct_urls_render_error_empty_witness :
    pyFormat [("date", "2025-01-01")] "keys/\x7byr\x7d/\x7bdate\x7d.txt" = none ∧
      construct_urls "2025-01-01"
        ⟨"github", "jetlicense/keys", "keys/\x7byr\x7d/\x7bdate\x7d.txt"⟩ = [] :=
  ⟨rfl, construct_urls_render_error_empty "2025-01-01"
    ⟨"github", "jetlicense/keys", "keys/\x7byr\x7d/\x7bdate\x7d.txt"⟩ rfl⟩

/-- Every month of a year accepted by `datetime` admits day 1 and
day 15. -/
theorem validYMDInt_first_fifteenth (y : Int) (m d : Nat)
    (hy : 1 ≤ y) (hm1 : 1 ≤ m) (hm2 : m ≤ 12) (hd : d = 1 ∨ d = 15) :
    validYMDInt y m d = true := by
  have h15 : 15 ≤ daysInMonthInt y m := by
    interval_cases m <;> simp only [daysInMonthInt] <;> first
      | omega
      | (split <;> omega)
  simp only [validYMDInt, Bool.and_eq_true, decide_eq_true_eq]
  rcases hd with rfl | rfl <;> exact ⟨⟨⟨⟨hy, hm1⟩, hm2⟩, by omega⟩, by omega⟩

/-- Claim C4 counterexample: with `today = 2026-10-12` and a lookback
window of `N = 1` day, the day `today - N` (that is 2026-10-11) required
by the claimed interval `[today-N, today]` is absent from the generated
set, and so is `2028-01-01`, the 1st of a month of `current_year + 2`,
required by the claimed full ±2-year window (the code's year range stops
at `current_year + 1`). -/
theorem generate_dates_claim_cex :
    (ymdOfDayNum (dayNumOfYmd 2026 10 12)).1 = 2026 ∧
      isoOfDayNum (dayNumOfYmd 2026 10 12 - 1) = "2026-10-11" ∧
      "2026-10-11" ∉ generate_dates (dayNumOfYmd 2026 10 12) 1 ∧
      "2028-01-01" ∉ generate_dates (dayNumOfYmd 2026 10 12) 1 := by
  exact ⟨by decide, by decide, by decide, by decide⟩

/-- Claim C4 (amended): for every lookback window `N ≥ 1` (and any
`today` whose year is at least 3, so that all four probed years are
positive), the generated collection is duplicate-free, contains both the
ISO and the month-day rendering of every day in `[today-(N-1), today]`
— not `[today-N, today]` — and contains the ISO form of the 1st and the
15th of every month of the four years `current_year - 2` through
`current_year + 1` — not a full ±2-year window.  The guard that would
skip invalid calendar dates never fires for these days. -/
theorem generate_dates_coverage (today daysBack : Nat)
    (hN : 1 ≤ daysBack) (hy : 3 ≤ (ymdOfDayNum today).1) :
    (∀ i, i < daysBack →
      isoOfDayNum (today - i) ∈ generate_dates today daysBack ∧
        mdOfDayNum (today - i) ∈ generate_dates today daysBack) ∧
      (∀ (k m : Nat), k < 4 → 1 ≤ m → m ≤ 12 →
        isoOfYmdInt (((ymdOfDayNum today).1 : Int) - 2 + (k : Int)) m 1 ∈
            generate_dates today daysBack ∧
          isoOfYmdInt (((ymdOfDayNum today).1 : Int) - 2 + (k : Int)) m 15 ∈
            generate_dates today daysBack) ∧
      (generate_dates today daysBack).Nodup := by
  refine ⟨?_, ?_, nodup_dedupFirst _⟩
  · intro i hi
    constructor <;>
    · rw [generate_dates, mem_dedupFirst, List.mem_append]
      left
      rw [dailyDates, List.mem_flatMap]
      exact ⟨i, List.mem_range.mpr hi, by simp⟩
  · intro k m hk hm1 hm2
    have hyv : (1 : Int) ≤ ((ymdOfDayNum today).1 : Int) - 2 + (k : Int) := by
      have h3 : (3 : Int) ≤ ((ymdOfDayNum today).1 : Int) := by exact_mod_cast hy
      omega
    have hmem : ∀ d, d = 1 ∨ d = 15 →
        isoOfYmdInt (((ymdOfDayNum today).1 : Int) - 2 + (k : Int)) m d ∈
          generate_dates today daysBack := by
      intro d hd
      rw [generate_dates, mem_dedupFirst, List.mem_append]
      right
      rw [monthlyDates, List.mem_flatMap]
      refine ⟨k, List.mem_range.mpr hk, ?_⟩
      rw [List.mem_flatMap]
      refine ⟨m - 1, List.mem_range.mpr (by omega), ?_⟩
      rw [List.mem_filterMap]
      refine ⟨d, by rcases hd with rfl | rfl <;> simp, ?_⟩
      have hmm : m - 1 + 1 = m := by omega
      rw [hmm, if_pos (validYMDInt_first_fifteenth _ _ _ hyv hm1 hm2 hd)]
    exact ⟨hmem 1 (Or.inl rfl), hmem 15 (Or.inr rfl)⟩

/-- Concrete witness for `generate_dates_coverage`: both hypotheses are
dischargeable at `today = 2026-10-12`, `N = 1`, and the covered day
`today - 0` is indeed in the generated set. -/
theorem generate_dates_coverage_witness :
    ((1 : Nat) ≤ 1 ∧ 3 ≤ (ymdOfDayNum (dayNumOfYmd 2026 10 12)).1) ∧
      "2026-10-12" ∈ generate_dates (dayNumOfYmd 2026 10 12) 1 := by
  refine ⟨⟨by decide, by decide⟩, ?_⟩
  have h := (generate_dates_coverage (dayNumOfYmd 2026 10 12) 1 (by decide)
    (by decide)).1 0 (by decide)
  have he : isoOfDayNum (dayNumOfYmd 2026 10 12 - 0) = "2026-10-12" := by decide
  exact he ▸ h.1

/-- A successful match of a group-shaped regex consumes exactly
`groupsLen` characters. -/
theorem matchLen_eq_some_len (p : Char → Bool) :
    ∀ (gs : List Nat) (cs : List Char) (k : Nat),
      matchLen p gs cs = some k → k = groupsLen gs := by
  intro gs
  induction gs with
  | nil => intro cs k h; simp [matchLen] at h
  | cons n rest ih =>
    intro cs k h
    cases rest with
    | nil =>
      rw [matchLen] at h
      split at h
      · injection h with h2
        rw [← h2]
        rfl
      · exact absurd h (by simp)
    | cons g gs' =>
      rw [matchLen] at h
      split at h
      · rw [Option.map_eq_some'] at h
        obtain ⟨a, ha, hb⟩ := h
        have h2 := ih (cs.drop (n + 1)) a ha
        rw [groupsLen]
        omega
      · exact absurd h (by simp)

/-- A successful anchored shape match is a successful `matchLen` run over
the whole string. -/
theorem matchShape_eq_some (gs : List Nat) (k : String)
    (h : matchShape gs k = true) :
    matchLen isAZ09 gs k.data = some k.data.length := by
  rw [matchShape] at h
  split at h
  next n heq =>
    have h2 : n = k.data.length := by simpa using h
    rw [← h2]
    exact heq
  next => exact absurd h (by simp)

/-- A string fully matching a shape has the shape's length. -/
theorem matchShape_length (gs : List Nat) (k : String)
    (h : matchShape gs k = true) : k.data.length = groupsLen gs :=
  matchLen_eq_some_len isAZ09 gs k.data k.data.length (matchShape_eq_some gs k h)

/-- Two shapes of different total length cannot both match one string. -/
theorem matchShape_false_of_len (gs1 gs2 : List Nat) (k : String)
    (h1 : matchShape gs1 k = true) (hne : groupsLen gs1 ≠ groupsLen gs2) :
    matchShape gs2 k = false := by
  by_contra h2
  rw [Bool.not_eq_false] at h2
  exact hne ((matchShape_length gs1 k h1).symm.trans (matchShape_length gs2 k h2))

/-- Every character of a string fully consumed by `matchLen` is either a
group character or a dash. -/
theorem matchLen_full_chars (p : Char → Bool) :
    ∀ (gs : List Nat) (cs : List Char),
      matchLen p gs cs = some cs.length → ∀ c ∈ cs, p c = true ∨ c = '-' := by
  intro gs
  induction gs with
  | nil => intro cs h; simp [matchLen] at h
  | cons n rest ih =>
    intro cs h c hc
    cases rest with
    | nil =>
      rw [matchLen] at h
      split at h
      next hcond =>
        injection h with h2
        simp only [Bool.and_eq_true, decide_eq_true_eq] at hcond
        obtain ⟨hlen, hall⟩ := hcond
        have htake : cs.take n = cs := by
          rw [h2]
          exact List.take_length cs
        rw [htake] at hall
        exact Or.inl (List.all_eq_true.mp hall c hc)
      next => exact absurd h (by simp)
    | cons g gs' =>
      rw [matchLen] at h
      split at h
      next hcond =>
        rw [Option.map_eq_some'] at h
        obtain ⟨a, ha, hb⟩ := h
        simp only [Bool.and_eq_true, decide_eq_true_eq] at hcond
        obtain ⟨⟨hlen, hall⟩, hget⟩ := hcond
        have hn : n < cs.length := by
          by_contra hge
          rw [List.get?_eq_none.mpr (by omega)] at hget
          exact absurd hget (by simp)
        have ha' : matchLen p (g :: gs') (cs.drop (n + 1)) =
            some ((cs.drop (n + 1)).length) := by
          rw [List.length_drop, ha]
          congr 1
          omega
        have hih := ih (cs.drop (n + 1)) ha'
        rw [← List.take_append_drop (n + 1) cs] at hc
        rcases List.mem_append.mp hc with hc1 | hc2
        · rw [List.take_succ] at hc1
          rcases List.mem_append.mp hc1 with hc3 | hc4
          · exact Or.inl (List.all_eq_true.mp hall c hc3)
          · right
            rw [List.get?_eq_getElem?] at hget
            rw [hget] at hc4
            simpa using hc4
        · exact hih c hc2
      next => exact absurd h (by simp)

/-- Every character of a string passing the anchored shape check is an
uppercase alphanumeric or a dash. -/
theorem shapeCheck_chars (k : String) (h : shapeCheck k = true) :
    ∀ c ∈ k.data, isAZ09 c = true ∨ c = '-' := by
  rw [shapeCheck] at h
  simp only [Bool.or_eq_true] at h
  rcases h with ((h | h) | h) | h <;>
    exact matchLen_full_chars isAZ09 _ k.data (matchShape_eq_some _ k h)

/-- A successful `expAt` match implies an equals sign in the text. -/
theorem expAt_mem (cs : List Char) (r : Nat × Nat × Nat)
    (h : expAt cs = some r) : '=' ∈ cs := by
  rcases cs with _ | ⟨c1, _ | ⟨c2, _ | ⟨c3, _ | ⟨c4, rest⟩⟩⟩⟩ <;>
    simp only [expAt] at h
  · exact absurd h (by simp)
  · exact absurd h (by simp)
  · exact absurd h (by simp)
  · exact absurd h (by simp)
  · split at h
    next hcond =>
      simp only [Bool.and_eq_true, decide_eq_true_eq] at hcond
      obtain ⟨⟨⟨hE, hX⟩, hP⟩, hQ⟩ := hcond
      subst hQ
      simp
    next => exact absurd h (by simp)

/-- `re.search` for the expiration marker fails on text with no equals
sign. -/
theorem searchExp_eq_none (cs : List Char) (h : '=' ∉ cs) :
    searchExp cs = none := by
  induction cs with
  | nil => rfl
  | cons c rest ih =>
    rw [searchExp]
    have hA : expAt (c :: rest) = none := by
      cases hE : expAt (c :: rest) with
      | none => rfl
      | some r => exact absurd (expAt_mem _ r hE) h
    rw [hA]
    exact ih (fun hm => h (List.mem_cons_of_mem _ hm))

/-- Claim C10: `validate_license` returns exactly the result of the
anchored shape check — a normalized string that matches one of the four
shapes consists of `[A-Z0-9-]` characters only, so it cannot contain the
`EXP=` marker and the expiration branch never changes the outcome. -/
theorem validate_license_eq_shape_check (today : Nat) (s : String) :
    validate_license today s = shapeCheck (normalizeKey s) := by
  by_cases h : shapeCheck (normalizeKey s) = true
  · rw [h]
    have hn : searchExp (normalizeKey s).data = none := by
      apply searchExp_eq_none
      intro hc
      rcases shapeCheck_chars (normalizeKey s) h '=' hc with h1 | h1
      · exact absurd h1 (by decide)
      · exact absurd h1 (by decide)
    simp only [validate_license]
    rw [if_pos h, hn]
  · rw [Bool.not_eq_true] at h
    simp only [validate_license, h]
    rfl

/-- Claim C5: every string accepted by `validate_license` has a
normalized form matching exactly one — not zero, not two — of the four
anchored canonical shapes. -/
theorem validate_license_exactly_one_shape (today : Nat) (s : String)
    (h : validate_license today s = true) :
    (cond (matchShape [5, 5, 5, 5, 5] (normalizeKey s)) 1 0) +
        (cond (matchShape [4, 4, 4, 4] (normalizeKey s)) 1 0) +
        (cond (matchShape [6, 6, 6] (normalizeKey s)) 1 0) +
        (cond (matchShape [3, 6, 6] (normalizeKey s)) 1 0) = 1 := by
  have hs : shapeCheck (normalizeKey s) = true := by
    by_contra hc
    simp only [validate_license] at h
    rw [if_neg hc] at h
    exact absurd h (by simp)
  rw [shapeCheck] at hs
  simp only [Bool.or_eq_true] at hs
  rcases hs with ((h1 | h1) | h1) | h1
  · rw [h1, matchShape_false_of_len [5, 5, 5, 5, 5] [4, 4, 4, 4] _ h1 (by decide),
      matchShape_false_of_len [5, 5, 5, 5, 5] [6, 6, 6] _ h1 (by decide),
      matchShape_false_of_len [5, 5, 5, 5, 5] [3, 6, 6] _ h1 (by decide)]
    rfl
  · rw [h1, matchShape_false_of_len [4, 4, 4, 4] [5, 5, 5, 5, 5] _ h1 (by decide),
      matchShape_false_of_len [4, 4, 4, 4] [6, 6, 6] _ h1 (by decide),
      matchShape_false_of_len [4, 4, 4, 4] [3, 6, 6] _ h1 (by decide)]
    rfl
  · rw [h1, matchShape_false_of_len [6, 6, 6] [5, 5, 5, 5, 5] _ h1 (by decide),
      matchShape_false_of_len [6, 6, 6] [4, 4, 4, 4] _ h1 (by decide),
      matchShape_false_of_len [6, 6, 6] [3, 6, 6] _ h1 (by decide)]
    rfl
  · rw [h1, matchShape_false_of_len [3, 6, 6] [5, 5, 5, 5, 5] _ h1 (by decide),
      matchShape_false_of_len [3, 6, 6] [4, 4, 4, 4] _ h1 (by decide),
      matchShape_false_of_len [3, 6, 6] [6, 6, 6] _ h1 (by decide)]
    rfl

/-- Concrete witness for `validate_license_exactly_one_shape`: the
standard-format key of end-to-end scenario A is accepted and matches
exactly the 5x5 shape. -/
theorem validate_license_exactly_one_shape_witness :
    validate_license 0 "ABCDE-FGHIJ-KLMNO-PQRST-UVWXY" = true ∧
      (cond (matchShape [5, 5, 5, 5, 5]
            (normalizeKey "ABCDE-FGHIJ-KLMNO-PQRST-UVWXY")) 1 0) +
          (cond (matchShape [4, 4, 4, 4]
            (normalizeKey "ABCDE-FGHIJ-KLMNO-PQRST-UVWXY")) 1 0) +
          (cond (matchShape [6, 6, 6]
            (normalizeKey "ABCDE-FGHIJ-KLMNO-PQRST-UVWXY")) 1 0) +
          (cond (matchShape [3, 6, 6]
            (normalizeKey "ABCDE-FGHIJ-KLMNO-PQRST-UVWXY")) 1 0) = 1 :=
  ⟨by decide, validate_license_exactly_one_shape 0 _ (by decide)⟩

/-- Invariant-carrying form of the C7 refinement: as long as
`valid_licenses` is bound whenever `valid_servers` is nonempty — as the
loop guarantees — the worker returns normally with the first server
yield. -/
theorem checkServersGo_eq (today : Nat) :
    ∀ (l : List (String × ServerOutcome)) (vs : List String)
      (vlOpt : Option (List String)), (vs ≠ [] → vlOpt.isSome = true) →
      checkServersGo today l vs vlOpt =
        Except.ok (firstServerYield today l) := by
  intro l
  induction l with
  | nil =>
    intro vs vlOpt hinv
    simp only [checkServersGo, firstServerYield]
    by_cases hv : vs.isEmpty
    · rw [if_pos hv]
    · rw [if_neg hv]
      have hne : vs ≠ [] := by
        intro he
        subst he
        exact hv rfl
      have hs := hinv hne
      cases vlOpt with
      | none => simp at hs
      | some v => rfl
  | cons p rest ih =>
    obtain ⟨url, o⟩ := p
    intro vs vlOpt hinv
    cases o with
    | netErr =>
      simp only [checkServersGo, firstServerYield]
      exact ih vs vlOpt hinv
    | resp code body =>
      simp only [checkServersGo, firstServerYield]
      by_cases hc : code = 200
      · simp only [if_pos hc]
        by_cases he : (extractValidated today url body).isEmpty
        · simp only [if_pos he]
          exact ih (vs ++ [url]) (some (extractValidated today url body))
            (fun _ => rfl)
        · simp only [if_neg he]
      · simp only [if_neg hc]
        exact ih vs vlOpt hinv

/-- Claim C7: for every assignment of HTTP outcomes (200, non-200, or a
raised network error) to the configured server endpoints,
`check_license_servers` returns without raising: it returns the annotated
validated keys extracted from the first probed server whose 200 body
yields any, and the empty list when no server yields any — in particular
the out-of-scope read of `valid_licenses` on line 467 is short-circuited
away whenever the variable is unbound, so no `NameError` escapes. -/
theorem check_license_servers_first_yield (today : Nat)
    (servers : List (String × ServerOutcome)) :
    check_license_servers today servers =
      Except.ok (firstServerYield today servers) :=
  checkServersGo_eq today servers [] none (fun h => absurd rfl h)
